import Mathlib

/-!
# Dashboard view model of `frontend/src/App.jsx`

A shallow embedding of the inventory view model (`InventoryView`: filter, sort,
display cap, sort-direction toggle), of the log-stream connection lifecycle
(`App`, WebSocket effect) and of the request handlers (`checkStatus`,
`handleStart`, `handleStop`, `SchedulerControl.toggle`), together with the
properties proved about them.

JavaScript strings are sequences of UTF-16 code units; `includes` and `<` act on
code units.  The engine's own primitives that the component calls
(`String.prototype.toLowerCase`, the string-to-number coercion used by `<` on a
string and a number, `JSON.parse`) and whether the log panel can render a decoded
frame are parameters of the model.
`Array.prototype.sort` is a stable sort (ECMAScript 2019), computed here by
stable insertion.
-/

namespace Rernamer

/-! ## JavaScript values -/

/-- JavaScript string, as its sequence of UTF-16 code units. -/
abbrev JsString := List Nat

/-- The JavaScript string of a literal (one code unit per character, as for every
character of the Basic Multilingual Plane). -/
def lit (s : String) : JsString := s.toList.map Char.toNat

/-- Primitives of the JavaScript engine that `sortedBooks` calls.
`toLowerCase` is `String.prototype.toLowerCase`; `toNumber` is the coercion
`ToNumber` on a string (`none` is `NaN`).  The two facts are those of ECMAScript:
the empty string lower-cases to itself and coerces to `+0`. -/
structure Runtime where
  toLowerCase : JsString → JsString
  toNumber : JsString → Option Int
  toLowerCase_empty : toLowerCase [] = []
  toNumber_empty : toNumber [] = some 0

/-- Lower-casing of one code unit in the ASCII range: `A`..`Z` go to `a`..`z`. -/
def asciiLowerUnit (c : Nat) : Nat := if 65 ≤ c ∧ c ≤ 90 then c + 32 else c

/-- Value of a string of decimal digits, `none` when another code unit occurs. -/
def digitsValue : JsString → Nat → Option Nat
  | [], acc => some acc
  | c :: cs, acc => if 48 ≤ c ∧ c ≤ 57 then digitsValue cs (10 * acc + (c - 48)) else none

/-- Engine primitives restricted to ASCII text: `toLowerCase` agrees with the
engine on every string of ASCII code units, `toNumber` on the empty string and on
strings of decimal digits (other numeric forms are read as `NaN` here and are
not used). -/
def asciiRuntime : Runtime where
  toLowerCase := fun s => s.map asciiLowerUnit
  toNumber := fun s => (digitsValue s 0).map Int.ofNat
  toLowerCase_empty := rfl
  toNumber_empty := rfl

/-- Primitive values met by the sort comparator: `undefined` (also standing for
`null`: both are nullish and falsy), booleans, numbers, strings. -/
inductive JsVal where
  | undefined
  | bool (b : Bool)
  | num (n : Int)
  | str (s : JsString)
  deriving DecidableEq, Repr

/-- Truthiness (`ToBoolean`). -/
def JsVal.truthy : JsVal → Bool
  | .undefined => false
  | .bool b => b
  | .num n => n != 0
  | .str s => !s.isEmpty

/-- `ToNumber` on a primitive value, `none` for `NaN`. -/
def JsVal.toNumber (rt : Runtime) : JsVal → Option Int
  | .undefined => none
  | .bool b => some (if b then 1 else 0)
  | .num n => some n
  | .str s => rt.toNumber s

/-- The relational operator `a < b` on primitive values: two strings compare by
code units, lexicographically; otherwise both sides are coerced to numbers and a
`NaN` on either side makes the comparison false.  `a > b` is `jsLt rt b a`. -/
def jsLt (rt : Runtime) : JsVal → JsVal → Bool
  | .str s, .str t => decide (s < t)
  | a, b =>
    match a.toNumber rt, b.toNumber rt with
    | some m, some n => decide (m < n)
    | _, _ => false

/-- `String.prototype.includes`: `sub` occurs in `s` as a run of consecutive code
units. -/
def includes : JsString → JsString → Bool
  | [], sub => sub.isPrefixOf []
  | c :: cs, sub => sub.isPrefixOf (c :: cs) || includes cs sub

/-! ## `Array.prototype.sort` -/

/-- Insert `x` in front of the first element it does not have to follow
(`cmp x y ≤ 0`). -/
def insertSorted {α : Type} (cmp : α → α → Int) (x : α) : List α → List α
  | [] => [x]
  | y :: ys => if cmp x y ≤ 0 then x :: y :: ys else y :: insertSorted cmp x ys

/-- `Array.prototype.sort(cmp)`: the stable sort by the comparator `cmp`
(negative: first argument first, positive: second argument first, zero: input
order kept).  For the comparator of `sortedBooks` the result does not depend on
the sorting algorithm (`arraySort_compareBooks_unique`). -/
def arraySort {α : Type} (cmp : α → α → Int) : List α → List α
  | [] => []
  | x :: xs => insertSorted cmp x (arraySort cmp xs)

/-! ## Inventory view model (`InventoryView`) -/

/-- Inventory item as the component reads it: `title`, `author` and `ean` are
lower-cased by the filter, `exists` and `has_cover` are the boolean flags,
`release_date` and `relative_cover_path` are rendered as text.  `none` is an
absent (or `null`) property.  The field `exists` is written `exists_`. -/
structure Book where
  ean : Option JsString
  title : Option JsString
  author : Option JsString
  release_date : Option JsString
  exists_ : Option Bool
  has_cover : Option Bool
  relative_cover_path : Option JsString
  deriving DecidableEq, Repr

/-- A string property as a value. -/
def strVal : Option JsString → JsVal
  | none => .undefined
  | some s => .str s

/-- A boolean property as a value. -/
def boolVal : Option Bool → JsVal
  | none => .undefined
  | some b => .bool b

/-- Property access `a[key]`. -/
def Book.get (a : Book) (key : String) : JsVal :=
  if key = "ean" then strVal a.ean
  else if key = "title" then strVal a.title
  else if key = "author" then strVal a.author
  else if key = "release_date" then strVal a.release_date
  else if key = "exists" then boolVal a.exists_
  else if key = "has_cover" then boolVal a.has_cover
  else if key = "relative_cover_path" then strVal a.relative_cover_path
  else .undefined

/-- Sort direction, `'asc'` or `'desc'`. -/
inductive Direction where
  | asc
  | desc
  deriving DecidableEq, Repr

/-- The state `sortConfig`; `key` may be `null`. -/
structure SortConfig where
  key : Option String
  direction : Direction
  deriving DecidableEq, Repr

/-- Initial sort state, `{ key: 'author', direction: 'asc' }`. -/
def initialSortConfig : SortConfig := { key := some "author", direction := .asc }

/-- `handleSort(key)`: the new sort state. -/
def handleSort (sortConfig : SortConfig) (key : String) : SortConfig :=
  let direction :=
    if sortConfig.key = some key ∧ sortConfig.direction = .asc then Direction.desc
    else Direction.asc
  { key := some key, direction := direction }

/-- The text a filter clause tests: `(x?.toLowerCase() || '')`. -/
def lowerOrEmpty (rt : Runtime) : Option JsString → JsString
  | none => []
  | some s => if (rt.toLowerCase s).isEmpty then [] else rt.toLowerCase s

/-- The filter predicate of `sortedBooks`, for the lower-cased filter text `f`. -/
def matchesFilter (rt : Runtime) (f : JsString) (b : Book) : Bool :=
  includes (lowerOrEmpty rt b.title) f ||
  includes (lowerOrEmpty rt b.author) f ||
  includes (lowerOrEmpty rt b.ean) f

/-- The filter step of `sortedBooks`: applied only when `filter` is truthy (not
empty). -/
def filterStep (rt : Runtime) (filter : JsString) (sortableItems : List Book) : List Book :=
  if !filter.isEmpty then
    let f := rt.toLowerCase filter
    sortableItems.filter (matchesFilter rt f)
  else sortableItems

/-- `v || ''`. -/
def orEmpty (v : JsVal) : JsVal := if v.truthy then v else .str []

/-- `if (typeof v === 'boolean') v = v ? 1 : 0`. -/
def boolToNum : JsVal → JsVal
  | .bool b => .num (if b then 1 else 0)
  | v => v

/-- `if (typeof v === 'string') v = v.toLowerCase()`. -/
def lowerStr (rt : Runtime) : JsVal → JsVal
  | .str s => .str (rt.toLowerCase s)
  | v => v

/-- The value the comparator compares for item `a`: `a[key] || ''`, then the
boolean step, then the string step. -/
def sortValue (rt : Runtime) (key : String) (a : Book) : JsVal :=
  lowerStr rt (boolToNum (orEmpty (a.get key)))

/-- The comparator passed to `sort`. -/
def compareBooks (rt : Runtime) (key : String) (direction : Direction) (a b : Book) : Int :=
  let aVal := sortValue rt key a
  let bVal := sortValue rt key b
  if jsLt rt aVal bVal then (if direction = .asc then -1 else 1)
  else if jsLt rt bVal aVal then (if direction = .asc then 1 else -1)
  else 0

/-- The sort step of `sortedBooks`: applied when `sortConfig.key !== null`. -/
def sortStep (rt : Runtime) (sortConfig : SortConfig) (sortableItems : List Book) : List Book :=
  match sortConfig.key with
  | some key => arraySort (compareBooks rt key sortConfig.direction) sortableItems
  | none => sortableItems

/-- `sortedBooks`: a copy of `books`, filtered, then sorted. -/
def sortedBooks (rt : Runtime) (books : List Book) (sortConfig : SortConfig)
    (filter : JsString) : List Book :=
  sortStep rt sortConfig (filterStep rt filter books)

/-- One rendered item row: the row key, the cover image source (when one is
shown), the four text cells and whether the badge reads `In Library`. -/
structure Row where
  key : Option JsString
  cover : Option JsString
  ean : Option JsString
  author : Option JsString
  title : Option JsString
  release_date : Option JsString
  inLibrary : Bool
  deriving DecidableEq, Repr

/-- The `<tr>` rendered for one book. -/
def renderRow (book : Book) : Row :=
  { key := book.ean
    cover :=
      if (boolVal book.has_cover).truthy && (strVal book.relative_cover_path).truthy
      then book.relative_cover_path else none
    ean := book.ean
    author := book.author
    title := book.title
    release_date := book.release_date
    inLibrary := (boolVal book.exists_).truthy }

/-- The rendered table of `InventoryView` once loading is over: the number in the
`Total:` label, the item rows, and the number printed in the summary row when
that row is rendered. -/
structure InventoryTable where
  totalLabel : Nat
  rows : List Row
  summary : Option Nat
  deriving DecidableEq, Repr

/-- The table part of the `return` of `InventoryView`. -/
def renderTable (rt : Runtime) (books : List Book) (sortConfig : SortConfig)
    (filter : JsString) : InventoryTable :=
  let sorted := sortedBooks rt books sortConfig filter
  { totalLabel := books.length
    rows := (sorted.take 100).map renderRow
    summary := if sorted.length > 100 then some sorted.length else none }

/-- What `InventoryView` renders: the loading notice while `loading` is set, the
table afterwards. -/
def renderInventory (rt : Runtime) (loading : Bool) (books : List Book)
    (sortConfig : SortConfig) (filter : JsString) : Option InventoryTable :=
  if loading then none else some (renderTable rt books sortConfig filter)

/-! ## Log stream (`App`, WebSocket effect) -/

/-- The `readyState` of a `WebSocket`: `CONNECTING`, `OPEN`, `CLOSING`, `CLOSED`. -/
inductive ReadyState where
  | connecting
  | opened
  | closing
  | closed
  deriving DecidableEq, Repr

/-- State touched by the WebSocket effect of `App`: the React state `logs` and
`wsConnected`, every `WebSocket` object created so far (by creation order) with
its `readyState`, the variable `ws` (index of the latest socket, `none` for
`null`), the pending `setTimeout(connect, delay)` timers by their delay in
milliseconds, the number of times `connect` has run, and whether the effect
cleanup has run (the component is unmounted).  `logs` is the list React holds:
once the component is unmounted `setLogs` no longer changes it.  `wsConnected` is
the value last passed to `setWsConnected`. -/
structure LogStream (Log : Type) where
  logs : List Log
  wsConnected : Bool
  sockets : List ReadyState
  ws : Option Nat
  timers : List Nat
  connectCalls : Nat
  cleanedUp : Bool
  deriving DecidableEq, Repr

/-- `connect()`: `ws = new WebSocket(wsUrl)` and the three handlers are attached. -/
def connect {Log : Type} (s : LogStream Log) : LogStream Log :=
  { s with
    sockets := s.sockets ++ [ReadyState.connecting]
    ws := some s.sockets.length
    connectCalls := s.connectCalls + 1 }

/-- `ws.onopen`. -/
def onopen {Log : Type} (s : LogStream Log) : LogStream Log :=
  { s with wsConnected := true }

/-- `ws.onmessage`: `JSON.parse(event.data)` (here `parse`, `none` when it
throws), then `setLogs(prev => [...prev, data])`.  A throw leaves the handler
before `setLogs`; on an unmounted component React drops the `setLogs` call. -/
def onmessage {Log : Type} (parse : JsString → Option Log) (data : JsString)
    (s : LogStream Log) : LogStream Log :=
  match parse data with
  | some d => if s.cleanedUp then s else { s with logs := s.logs ++ [d] }
  | none => s

/-- `ws.onclose`: `setWsConnected(false); setTimeout(connect, 3000)`. -/
def onclose {Log : Type} (s : LogStream Log) : LogStream Log :=
  { s with wsConnected := false, timers := s.timers ++ [3000] }

/-- The method `close()` of socket `i`: a connecting or open socket starts
closing, otherwise nothing happens.  Its `close` event is dispatched later. -/
def wsClose {Log : Type} (i : Nat) (s : LogStream Log) : LogStream Log :=
  match s.sockets[i]? with
  | some ReadyState.connecting => { s with sockets := s.sockets.set i ReadyState.closing }
  | some ReadyState.opened => { s with sockets := s.sockets.set i ReadyState.closing }
  | _ => s

/-- The effect cleanup: `if (ws) ws.close()`. -/
def cleanup {Log : Type} (s : LogStream Log) : LogStream Log :=
  match s.ws with
  | some i => { wsClose i s with cleanedUp := true }
  | none => { s with cleanedUp := true }

/-- State right after the effect has run on mount, `logs` being `L`: `ws = null`,
then `connect()`. -/
def mount {Log : Type} (L : List Log) : LogStream Log :=
  connect
    { logs := L, wsConnected := false, sockets := [], ws := none, timers := [],
      connectCalls := 0, cleanedUp := false }

/-- Events of the connection lifecycle: socket `i` opens, receives a frame or
closes, pending timer number `k` fires, the component unmounts. -/
inductive Event where
  | opened (i : Nat)
  | message (i : Nat) (data : JsString)
  | closed (i : Nat)
  | timer (k : Nat)
  | unmount
  deriving DecidableEq, Repr

/-- The handler run for one event, after the browser has updated the socket or
removed the fired timer. -/
def step {Log : Type} (parse : JsString → Option Log) (e : Event) (s : LogStream Log) :
    LogStream Log :=
  match e with
  | .opened i => onopen { s with sockets := s.sockets.set i ReadyState.opened }
  | .message _ data => onmessage parse data s
  | .closed i => onclose { s with sockets := s.sockets.set i ReadyState.closed }
  | .timer k => connect { s with timers := s.timers.eraseIdx k }
  | .unmount => cleanup s

/-- When the browser (or React, for `unmount`) can dispatch an event: `open` to a
connecting socket, `message` to an open one, `close` once to a socket that is not
yet closed, a timer that is pending, the cleanup once. -/
def enabled {Log : Type} (s : LogStream Log) : Event → Bool
  | .opened i => s.sockets[i]? == some ReadyState.connecting
  | .message i _ => s.sockets[i]? == some ReadyState.opened
  | .closed i =>
    s.sockets[i]? == some ReadyState.connecting || s.sockets[i]? == some ReadyState.opened ||
      s.sockets[i]? == some ReadyState.closing
  | .timer k => decide (k < s.timers.length)
  | .unmount => !s.cleanedUp

/-- The state after a sequence of events. -/
def run {Log : Type} (parse : JsString → Option Log) : List Event → LogStream Log → LogStream Log
  | [], s => s
  | e :: es, s => run parse es (step parse e s)

/-- Every event of the sequence is enabled when it is dispatched. -/
def validTrace {Log : Type} (parse : JsString → Option Log) : List Event → LogStream Log → Bool
  | [], _ => true
  | e :: es, s => enabled s e && validTrace parse es (step parse e s)

/-- The frames carried by the `message` events of a sequence, in order. -/
def frames : List Event → List JsString
  | [] => []
  | .message _ data :: es => data :: frames es
  | _ :: es => frames es

/-- A socket that is connecting or open. -/
def ReadyState.live : ReadyState → Bool
  | .connecting => true
  | .opened => true
  | _ => false

/-- The event sequence of `n` failed attempts: `n` times, the latest socket
closes and the timer it scheduled fires. -/
def retries : Nat → Nat → List Event
  | 0, _ => []
  | n + 1, i => Event.closed i :: Event.timer 0 :: retries n (i + 1)

/-- A frame decoder for examples: `JSON.parse` on the frames that are decimal
numerals without a leading zero; every other frame is rejected here. -/
def numberParse (data : JsString) : Option Nat :=
  match data with
  | [] => none
  | [c] => digitsValue [c] 0
  | c :: cs => if c = 48 then none else digitsValue (c :: cs) 0

/-- A sample lifecycle: the first socket opens, delivers `12`, then a frame that
does not parse, and closes; the timer fires, the second socket opens and delivers
`7`. -/
def sampleTrace : List Event :=
  [Event.opened 0, Event.message 0 (lit "12"), Event.message 0 (lit "oops"), Event.closed 0,
    Event.timer 0, Event.opened 1, Event.message 1 (lit "7")]

/-- The lifecycle in which the component unmounts while the first socket is open:
the cleanup runs, the socket reports its close, the timer set by `onclose` fires. -/
def unmountTrace : List Event :=
  [Event.opened 0, Event.unmount, Event.closed 0, Event.timer 0]

/-! ## Rendering of the log panel (`App`, `return`) -/

/-- The state `view` of `App`; the log panel is rendered in the view `dashboard`. -/
inductive View where
  | dashboard
  | inventory
  | settings
  deriving DecidableEq, Repr

/-- The page: the log stream state and the current view. -/
structure Page (Log : Type) where
  stream : LogStream Log
  view : View
  deriving DecidableEq, Repr

/-- What happens on the page: an event of the connection lifecycle, or a click on
a navigation button (`setView`). -/
inductive Action where
  | stream (e : Event)
  | navigate (v : View)
  deriving DecidableEq, Repr

/-- Rendering throws: the log panel is shown and some entry of `logs` cannot be
rendered by `logs.map(...)`.  `renders d` tells whether the entry `d` renders: for
the value `null` reading `log.level` throws, and an object as `log.message` is not
a valid React child. -/
def renderThrows {Log : Type} (renders : Log → Bool) (a : Page Log) : Bool :=
  a.view == View.dashboard && a.stream.logs.any (fun d => !renders d)

/-- React renders the mounted component after a state change; `App` has no error
boundary, so when rendering throws React unmounts it, which runs the effect
cleanup. -/
def rerender {Log : Type} (renders : Log → Bool) (a : Page Log) : Page Log :=
  if !a.stream.cleanedUp && renderThrows renders a then { a with stream := cleanup a.stream }
  else a

/-- One action on the page, followed by the render it causes.  On an unmounted
component `setView` is dropped. -/
def act {Log : Type} (parse : JsString → Option Log) (renders : Log → Bool) (x : Action)
    (a : Page Log) : Page Log :=
  match x with
  | .stream e => rerender renders { a with stream := step parse e a.stream }
  | .navigate v => if a.stream.cleanedUp then a else rerender renders { a with view := v }

/-- When an action can happen: a lifecycle event when it is enabled, a click while
the component is mounted. -/
def canAct {Log : Type} (a : Page Log) : Action → Bool
  | .stream e => enabled a.stream e
  | .navigate _ => !a.stream.cleanedUp

/-- The page after a sequence of actions. -/
def runPage {Log : Type} (parse : JsString → Option Log) (renders : Log → Bool) :
    List Action → Page Log → Page Log
  | [], a => a
  | x :: xs, a => runPage parse renders xs (act parse renders x a)

/-- Every action of the sequence can happen when it does. -/
def validActions {Log : Type} (parse : JsString → Option Log) (renders : Log → Bool) :
    List Action → Page Log → Bool
  | [], _ => true
  | x :: xs, a => canAct a x && validActions parse renders xs (act parse renders x a)

/-- The frames carried by the `message` events of a sequence of actions, in order. -/
def actionFrames : List Action → List JsString
  | [] => []
  | .stream (.message _ data) :: xs => data :: actionFrames xs
  | _ :: xs => actionFrames xs

/-- The page right after mount: the view is `dashboard`, `logs` is `L`. -/
def mountPage {Log : Type} (L : List Log) : Page Log :=
  { stream := mount L, view := View.dashboard }

/-- A frame decoder for examples: `JSON.parse` on the frame `null`, decoded to
`none`, and on the decimal numerals of `numberParse`; every other frame is
rejected here. -/
def nullableParse (data : JsString) : Option (Option Nat) :=
  if data = lit "null" then some none else (numberParse data).map some

/-- Whether a value decoded by `nullableParse` renders in the log panel: a number
does (its `level`, `timestamp` and `message` read as `undefined`), `null` does
not. -/
def nullableRenders (d : Option Nat) : Bool := d.isSome

/-- The sample lifecycle as actions on the page. -/
def sampleActions : List Action := sampleTrace.map Action.stream

/-- A lifecycle with a frame `null`: the first socket opens and delivers `12` and
`null`; the socket then reports its close, the timer fires, the second socket
opens and delivers `7`. -/
def crashActions : List Action :=
  [Action.stream (Event.opened 0), Action.stream (Event.message 0 (lit "12")),
    Action.stream (Event.message 0 (lit "null")), Action.stream (Event.closed 0),
    Action.stream (Event.timer 0), Action.stream (Event.opened 1),
    Action.stream (Event.message 1 (lit "7"))]

/-! ## Specification-side definitions and sample data -/

/-- The filter predicate as the specification words it: the lower-cased filter
text occurs in the lower-cased title, author or ean, an absent field counting as
the empty string. -/
def containsText (rt : Runtime) (filter : JsString) (b : Book) : Prop :=
  rt.toLowerCase filter <:+: (b.title.map rt.toLowerCase).getD [] ∨
  rt.toLowerCase filter <:+: (b.author.map rt.toLowerCase).getD [] ∨
  rt.toLowerCase filter <:+: (b.ean.map rt.toLowerCase).getD []

instance (rt : Runtime) (filter : JsString) (b : Book) : Decidable (containsText rt filter b) := by
  unfold containsText; infer_instance

/-- Code of a compared value in the lexicographic order of code-unit sequences:
a string is its own code, a number is placed after the empty string. -/
def valueCode : JsVal → List Nat
  | .str s => s
  | _ => [0]

/-- Code of the value compared for a book under a sort key. -/
def rank (rt : Runtime) (key : String) (a : Book) : List Nat := valueCode (sortValue rt key a)

/-- Sample inventory item number `i`. -/
def sampleBook (i : Nat) : Book :=
  { ean := some (lit "978" ++ [48 + i / 100 % 10, 48 + i / 10 % 10, 48 + i % 10])
    title := some (lit "Title")
    author := some (lit "John Smith")
    release_date := some (lit "2020")
    exists_ := some true
    has_cover := some false
    relative_cover_path := none }

/-- A collection of 150 inventory items. -/
def books150 : List Book := (List.range 150).map sampleBook

/-- Invariant of the connection lifecycle: every socket but the latest is closed,
`ws` is the latest socket, and either the latest socket is not closed and no timer
is pending, or it is closed and one timer of 3000 ms is pending. -/
def OneAttempt {Log : Type} (s : LogStream Log) : Prop :=
  ∃ n r, s.sockets = List.replicate n ReadyState.closed ++ [r] ∧ s.ws = some n ∧
    ((r ≠ ReadyState.closed ∧ s.timers = []) ∨ (r = ReadyState.closed ∧ s.timers = [3000]))

/-! ## Requests (`App`: status poll, start, stop; `SchedulerControl`: toggle) -/

/-- Outcome of a `fetch(...)` call: the promise resolves with a response, whose
status is a success (`ok`) or not, or it rejects (network failure). -/
inductive FetchOutcome where
  | response (ok : Bool)
  | networkError
  deriving DecidableEq, Repr

/-- Outcome of `res.json()` on a response: the promise rejects (the body is not
JSON), or the body decodes to `null`, or it decodes to a value whose property
`running` reads as `running` (`undefined` when it has no such property). -/
inductive JsonBody where
  | invalid
  | null
  | value (running : JsVal)
  deriving DecidableEq, Repr

/-- React state of `App` that the request handlers could touch: `status`, `logs`,
`config` (its `library_path`) and `wsConnected`. -/
structure AppState (Log : Type) where
  status : JsVal
  logs : List Log
  config : JsString
  wsConnected : Bool
  deriving DecidableEq, Repr

/-- How an `async` handler ends: the state it leaves, and whether its promise
rejects (an error reaches the caller). -/
structure Completion (σ : Type) where
  state : σ
  rejected : Bool
  deriving DecidableEq, Repr

/-- `checkStatus`: `fetch('/api/status')`, `res.json()`, `setStatus(data.running)`,
all inside `try`; the `catch` only writes to the console.  Reading `running` from a
`null` body throws and is caught as well. -/
def checkStatus {Log : Type} (fetchOutcome : FetchOutcome) (body : JsonBody)
    (s : AppState Log) : Completion (AppState Log) :=
  match fetchOutcome with
  | .networkError => { state := s, rejected := false }
  | .response _ =>
    match body with
    | .invalid => { state := s, rejected := false }
    | .null => { state := s, rejected := false }
    | .value running => { state := { s with status := running }, rejected := false }

/-- The polling effect: `setInterval(checkStatus, 2000)`; the state after the ticks
whose outcomes are listed, in order. -/
def pollTicks {Log : Type} : List (FetchOutcome × JsonBody) → AppState Log → AppState Log
  | [], s => s
  | (f, b) :: ticks, s => pollTicks ticks (checkStatus f b s).state

/-- `handleStart`: `fetch('/api/start', POST)`, `res.json()`, then
`setStatus(true)`, all inside `try`; the `catch` only writes to the console. -/
def handleStart {Log : Type} (fetchOutcome : FetchOutcome) (body : JsonBody)
    (s : AppState Log) : Completion (AppState Log) :=
  match fetchOutcome with
  | .networkError => { state := s, rejected := false }
  | .response _ =>
    match body with
    | .invalid => { state := s, rejected := false }
    | _ => { state := { s with status := JsVal.bool true }, rejected := false }

/-- `handleStop`: `await fetch('/api/stop', POST)` inside `try`; the `catch` only
writes to the console. -/
def handleStop {Log : Type} (fetchOutcome : FetchOutcome) (s : AppState Log) :
    Completion (AppState Log) :=
  match fetchOutcome with
  | .networkError => { state := s, rejected := false }
  | .response _ => { state := s, rejected := false }

/-- A run of `SchedulerControl.toggle`: the flag `enabled` while the request is in
flight (the handler is suspended at its `await`), the flag once the handler has
ended, and whether its promise rejects. -/
structure ToggleRun where
  inFlight : Bool
  settled : Bool
  rejected : Bool
  deriving DecidableEq, Repr

/-- `SchedulerControl.toggle`: `newState = !enabled`, `await fetch(...)`, then
`setEnabled(newState)`.  There is no `try`: when `fetch` rejects the handler ends
at the `await`. -/
def toggle (enabled : Bool) (fetchOutcome : FetchOutcome) : ToggleRun :=
  let newState := !enabled
  match fetchOutcome with
  | .response _ => { inFlight := enabled, settled := newState, rejected := false }
  | .networkError => { inFlight := enabled, settled := enabled, rejected := true }

/-- The `running` value read at the last tick whose request got a response, with
a success status or not, and a body that decoded to a value other than `null`, if
there is such a tick. -/
def lastRunning : List (FetchOutcome × JsonBody) → Option JsVal
  | [] => none
  | (FetchOutcome.response _, JsonBody.value running) :: ticks =>
    match lastRunning ticks with
    | some r => some r
    | none => some running
  | _ :: ticks => lastRunning ticks

/-- The value under the sort key is a string or is missing. -/
def JsVal.strOrMissing : JsVal → Bool
  | .undefined => true
  | .str _ => true
  | _ => false

/-- The lower-cased sort-key value of a book, a missing value counting as the empty
string. -/
def lowerKey (rt : Runtime) (key : String) (b : Book) : JsString :=
  match b.get key with
  | .str s => rt.toLowerCase s
  | _ => []

/-- A book with the given ean and title and nothing else. -/
def titled (ean title : String) : Book :=
  { ean := some (lit ean), title := some (lit title), author := none, release_date := none,
    exists_ := none, has_cover := none, relative_cover_path := none }

/-- Three books whose titles differ in case. -/
def sampleShelf : List Book := [titled "1" "Zeta", titled "2" "alpha", titled "3" "Beta"]

/-- A book with only the flag `exists`, set or absent. -/
def flagged (flag : Option Bool) : Book :=
  { ean := none, title := none, author := none, release_date := none,
    exists_ := flag, has_cover := none, relative_cover_path := none }

/-- Initial state of `App`: `status` false, no logs, empty library path,
disconnected. -/
def initialApp : AppState JsString :=
  { status := JsVal.bool false, logs := [], config := [], wsConnected := false }

/-- The state of `App` once a poll tick has found the scan running. -/
def runningApp : AppState JsString :=
  { status := JsVal.bool true, logs := [], config := [], wsConnected := true }

/-! ## Auxiliary lemmas -/

theorem includes_iff_infix (s sub : JsString) : includes s sub = true ↔ sub <:+: s := by
  induction s with
  | nil =>
    cases sub <;> simp [includes, List.isPrefixOf]
  | cons c cs ih =>
    rw [includes, Bool.or_eq_true, ih, List.infix_cons_iff, List.isPrefixOf_iff_prefix]

theorem lowerOrEmpty_eq (rt : Runtime) (x : Option JsString) :
    lowerOrEmpty rt x = (x.map rt.toLowerCase).getD [] := by
  cases x with
  | none => rfl
  | some s =>
    simp only [lowerOrEmpty, Option.map_some', Option.getD_some]
    split
    · next h => exact (List.isEmpty_iff.mp h).symm
    · rfl

theorem matchesFilter_iff (rt : Runtime) (filter : JsString) (b : Book) :
    matchesFilter rt (rt.toLowerCase filter) b = true ↔ containsText rt filter b := by
  simp only [matchesFilter, containsText, Bool.or_eq_true, includes_iff_infix, lowerOrEmpty_eq,
    or_assoc]

theorem filterStep_eq_filter (rt : Runtime) (filter : JsString) (books : List Book) :
    filterStep rt filter books = books.filter (fun b => decide (containsText rt filter b)) := by
  unfold filterStep
  cases filter with
  | nil =>
    have : ∀ b : Book, containsText rt [] b := by
      intro b; left; rw [rt.toLowerCase_empty]; exact List.nil_infix
    simp [this]
  | cons c cs =>
    simp only [List.isEmpty_cons, Bool.not_false, if_true]
    apply List.filter_congr
    intro b _
    rw [Bool.eq_iff_iff, matchesFilter_iff, decide_eq_true_iff]


theorem arraySort_eq_insertionSort {α : Type} (cmp : α → α → Int) (l : List α) :
    arraySort cmp l = l.insertionSort (fun a b => cmp a b ≤ 0) := by
  induction l with
  | nil => rfl
  | cons x xs ih =>
    have hins : ∀ ys : List α,
        insertSorted cmp x ys = ys.orderedInsert (fun a b => cmp a b ≤ 0) x := by
      intro ys
      induction ys with
      | nil => rfl
      | cons y ys ihy => simp only [insertSorted, List.orderedInsert, ihy]
    simp only [arraySort, List.insertionSort, ih, hins]

theorem sortValue_strVal (rt : Runtime) (x : Option JsString) :
    lowerStr rt (boolToNum (orEmpty (strVal x))) = .str (rt.toLowerCase (x.getD [])) := by
  cases x with
  | none => rfl
  | some s =>
    cases s with
    | nil => rfl
    | cons c cs => rfl

theorem sortValue_boolVal (rt : Runtime) (x : Option Bool) :
    lowerStr rt (boolToNum (orEmpty (boolVal x))) = .str [] ∨
    lowerStr rt (boolToNum (orEmpty (boolVal x))) = .num 1 := by
  cases x with
  | none => left; simp [boolVal, orEmpty, JsVal.truthy, boolToNum, lowerStr, rt.toLowerCase_empty]
  | some b =>
    cases b with
    | false => left; simp [boolVal, orEmpty, JsVal.truthy, boolToNum, lowerStr, rt.toLowerCase_empty]
    | true => right; rfl

theorem sortValue_column (rt : Runtime) (key : String) :
    (∀ a, ∃ s, sortValue rt key a = .str s) ∨
    (∀ a, sortValue rt key a = .str [] ∨ sortValue rt key a = .num 1) := by
  unfold sortValue Book.get
  split_ifs
  · left; intro a; exact ⟨_, sortValue_strVal rt _⟩
  · left; intro a; exact ⟨_, sortValue_strVal rt _⟩
  · left; intro a; exact ⟨_, sortValue_strVal rt _⟩
  · left; intro a; exact ⟨_, sortValue_strVal rt _⟩
  · right; intro a; exact sortValue_boolVal rt _
  · right; intro a; exact sortValue_boolVal rt _
  · left; intro a; exact ⟨_, sortValue_strVal rt _⟩
  · left; intro a; exact ⟨_, sortValue_strVal rt none⟩

theorem jsLt_sortValue (rt : Runtime) (key : String) (a b : Book) :
    jsLt rt (sortValue rt key a) (sortValue rt key b) = decide (rank rt key a < rank rt key b) := by
  unfold rank
  rcases sortValue_column rt key with h | h
  · obtain ⟨s, hs⟩ := h a
    obtain ⟨t, ht⟩ := h b
    rw [hs, ht]; rfl
  · rcases h a with ha | ha <;> rcases h b with hb | hb <;> rw [ha, hb] <;>
      simp [jsLt, JsVal.toNumber, valueCode, rt.toNumber_empty]
    decide

theorem compareBooks_nonpos_iff (rt : Runtime) (key : String) (d : Direction) (a b : Book) :
    compareBooks rt key d a b ≤ 0 ↔
      (if d = .asc then rank rt key a ≤ rank rt key b else rank rt key b ≤ rank rt key a) := by
  simp only [compareBooks, jsLt_sortValue, decide_eq_true_eq]
  rcases lt_trichotomy (rank rt key a) (rank rt key b) with h | h | h
  · cases d <;> simp [h, h.le, not_le.mpr h]
  · cases d <;> simp [h]
  · cases d <;> simp [h, h.le, not_le.mpr h, not_lt.mpr h.le]

theorem compareBooks_eq_zero_iff (rt : Runtime) (key : String) (d : Direction) (a b : Book) :
    compareBooks rt key d a b = 0 ↔ rank rt key a = rank rt key b := by
  simp only [compareBooks, jsLt_sortValue, decide_eq_true_eq]
  rcases lt_trichotomy (rank rt key a) (rank rt key b) with h | h | h
  · cases d <;> simp [h, h.ne]
  · cases d <;> simp [h]
  · cases d <;> simp [h, h.ne', not_lt.mpr h.le]

theorem compareBooks_total (rt : Runtime) (key : String) (d : Direction) :
    IsTotal Book (fun a b => compareBooks rt key d a b ≤ 0) := by
  constructor
  intro a b
  simp only [compareBooks_nonpos_iff]
  cases d
  · simpa using le_total (rank rt key a) (rank rt key b)
  · simpa using le_total (rank rt key b) (rank rt key a)

theorem compareBooks_trans (rt : Runtime) (key : String) (d : Direction) :
    IsTrans Book (fun a b => compareBooks rt key d a b ≤ 0) := by
  constructor
  intro a b c
  simp only [compareBooks_nonpos_iff]
  cases d
  · simpa using fun h₁ h₂ => le_trans h₁ h₂
  · simpa using fun h₁ h₂ => le_trans h₂ h₁

theorem arraySort_perm {α : Type} (cmp : α → α → Int) (l : List α) :
    (arraySort cmp l).Perm l := by
  rw [arraySort_eq_insertionSort]
  exact List.perm_insertionSort _ l

theorem arraySort_compareBooks_sorted (rt : Runtime) (key : String) (d : Direction)
    (l : List Book) :
    (arraySort (compareBooks rt key d) l).Pairwise (fun a b => compareBooks rt key d a b ≤ 0) := by
  rw [arraySort_eq_insertionSort]
  haveI := compareBooks_total rt key d
  haveI := compareBooks_trans rt key d
  exact List.sorted_insertionSort _ l

theorem arraySort_of_sorted {α : Type} (cmp : α → α → Int) (l : List α)
    (h : l.Pairwise (fun a b => cmp a b ≤ 0)) : arraySort cmp l = l := by
  rw [arraySort_eq_insertionSort]
  exact List.Sorted.insertionSort_eq h

theorem arraySort_stable_class (rt : Runtime) (key : String) (d : Direction)
    (x : Book) (l : List Book) :
    (arraySort (compareBooks rt key d) l).filter (fun y => compareBooks rt key d x y == 0) =
      l.filter (fun y => compareBooks rt key d x y == 0) := by
  have hpw : (l.filter (fun y => compareBooks rt key d x y == 0)).Pairwise
      (fun a b => compareBooks rt key d a b ≤ 0) := by
    rw [List.pairwise_iff_forall_sublist]
    intro a b hab
    have ha := List.mem_filter.mp (hab.subset (List.mem_cons_self _ _))
    have hb := List.mem_filter.mp (hab.subset (List.mem_cons_of_mem _ (List.mem_singleton_self _)))
    have ha' := (compareBooks_eq_zero_iff rt key d x a).mp (by simpa using ha.2)
    have hb' := (compareBooks_eq_zero_iff rt key d x b).mp (by simpa using hb.2)
    exact le_of_eq ((compareBooks_eq_zero_iff rt key d a b).mpr (ha'.symm.trans hb'))
  have hsub : (l.filter (fun y => compareBooks rt key d x y == 0)).Sublist
      (arraySort (compareBooks rt key d) l) := by
    rw [arraySort_eq_insertionSort]
    exact List.sublist_insertionSort hpw (List.filter_sublist _)
  have hsub' := hsub.filter (fun y => compareBooks rt key d x y == 0)
  rw [List.filter_filter] at hsub'
  simp only [Bool.and_self] at hsub'
  have hlen := ((arraySort_perm (compareBooks rt key d) l).filter
    (fun y => compareBooks rt key d x y == 0)).length_eq
  exact (hsub'.eq_of_length hlen.symm).symm

/-- The stable sort is determined by its contract: a list that holds the items of
`l`, is ordered by the comparator and keeps every class of equal items in its
input order is the list `arraySort` computes. -/
theorem arraySort_compareBooks_unique (rt : Runtime) (key : String) (d : Direction)
    (l out : List Book) (hperm : out.Perm l)
    (hsorted : out.Pairwise (fun a b => compareBooks rt key d a b ≤ 0))
    (hstable : ∀ x, out.filter (fun y => compareBooks rt key d x y == 0) =
      l.filter (fun y => compareBooks rt key d x y == 0)) :
    out = arraySort (compareBooks rt key d) l := by
  have key_lemma : ∀ (l₁ l₂ : List Book), l₁.Perm l₂ →
      l₁.Pairwise (fun a b => compareBooks rt key d a b ≤ 0) →
      l₂.Pairwise (fun a b => compareBooks rt key d a b ≤ 0) →
      (∀ x, l₁.filter (fun y => compareBooks rt key d x y == 0) =
        l₂.filter (fun y => compareBooks rt key d x y == 0)) → l₁ = l₂ := by
    intro l₁
    induction l₁ with
    | nil => intro l₂ hp _ _ _; exact hp.nil_eq
    | cons a t₁ ih =>
      intro l₂ hp h₁ h₂ hf
      cases l₂ with
      | nil => exact absurd hp.symm.nil_eq (by simp)
      | cons b t₂ =>
        have hab : compareBooks rt key d a b ≤ 0 := by
          rcases List.mem_cons.mp (hp.symm.subset (List.mem_cons_self b t₂)) with h | h
          · rw [h]; exact le_of_eq ((compareBooks_eq_zero_iff rt key d a a).mpr rfl)
          · exact (List.pairwise_cons.mp h₁).1 b h
        have hba : compareBooks rt key d b a ≤ 0 := by
          rcases List.mem_cons.mp (hp.subset (List.mem_cons_self a t₁)) with h | h
          · rw [h]; exact le_of_eq ((compareBooks_eq_zero_iff rt key d b b).mpr rfl)
          · exact (List.pairwise_cons.mp h₂).1 a h
        have hrank : rank rt key a = rank rt key b := by
          have h1 := (compareBooks_nonpos_iff rt key d a b).mp hab
          have h2 := (compareBooks_nonpos_iff rt key d b a).mp hba
          cases d
          · simp only [if_true] at h1 h2; exact le_antisymm h1 h2
          · simp only [reduceCtorEq, if_false] at h1 h2; exact le_antisymm h2 h1
        have haa : (compareBooks rt key d a a == 0) = true := by
          simpa using (compareBooks_eq_zero_iff rt key d a a).mpr rfl
        have hab0 : (compareBooks rt key d a b == 0) = true := by
          simpa using (compareBooks_eq_zero_iff rt key d a b).mpr hrank
        have hhead := hf a
        simp only [List.filter_cons, haa, hab0, if_true] at hhead
        have heq : a = b := (List.cons.inj hhead).1
        subst heq
        congr 1
        refine ih t₂ ((List.perm_cons a).mp hp) (List.pairwise_cons.mp h₁).2
          (List.pairwise_cons.mp h₂).2 ?_
        intro x
        have hx := hf x
        by_cases hxa : (compareBooks rt key d x a == 0) = true
        · simp only [List.filter_cons, hxa, if_true] at hx
          exact (List.cons.inj hx).2
        · simp only [List.filter_cons, hxa, Bool.false_eq_true, if_false] at hx
          exact hx
  refine key_lemma out _ (hperm.trans (arraySort_perm _ l).symm) hsorted
    (arraySort_compareBooks_sorted rt key d l) ?_
  intro x
  rw [hstable x, arraySort_stable_class]

theorem length_sortStep (rt : Runtime) (cfg : SortConfig) (l : List Book) :
    (sortStep rt cfg l).length = l.length := by
  unfold sortStep
  cases cfg.key with
  | none => rfl
  | some key => exact (arraySort_perm _ l).length_eq

theorem renderTable_rows_length (rt : Runtime) (books : List Book) (cfg : SortConfig)
    (filter : JsString) :
    (renderTable rt books cfg filter).rows.length = min (filterStep rt filter books).length 100 := by
  simp [renderTable, sortedBooks, length_sortStep, Nat.min_comm]

theorem renderTable_summary (rt : Runtime) (books : List Book) (cfg : SortConfig)
    (filter : JsString) :
    (renderTable rt books cfg filter).summary =
      if 100 < (filterStep rt filter books).length then some (filterStep rt filter books).length
      else none := by
  simp [renderTable, sortedBooks, length_sortStep]

theorem renderRow_inLibrary (b : Book) :
    (renderRow b).inLibrary = decide (b.exists_ = some true) := by
  rcases hb : b.exists_ with _ | _ | _ <;> simp [renderRow, boolVal, JsVal.truthy, hb]

theorem renderRow_cover (b : Book) :
    (renderRow b).cover =
      if b.has_cover = some true ∧ b.relative_cover_path ≠ some [] then b.relative_cover_path
      else none := by
  rcases hc : b.has_cover with _ | _ | _ <;> rcases hp : b.relative_cover_path with _ | _ | _ <;>
    simp [renderRow, boolVal, strVal, JsVal.truthy, hc, hp]

theorem take_min_length {α : Type} (l : List α) (k : Nat) :
    l.take (min l.length k) = l.take k := by
  rcases le_total l.length k with h | h
  · rw [min_eq_left h, List.take_of_length_le h, List.take_of_length_le le_rfl]
  · rw [min_eq_right h]

theorem length_books150 : books150.length = 150 := by
  simp [books150]

theorem getElem?_closed_append {n i : Nat} {r x : ReadyState}
    (h : (List.replicate n ReadyState.closed ++ [r])[i]? = some x) (hx : x ≠ ReadyState.closed) :
    i = n ∧ x = r := by
  rcases lt_trichotomy i n with hlt | heq | hgt
  · rw [List.getElem?_append_left (by simpa using hlt)] at h
    rw [List.getElem?_replicate] at h
    simp [hlt] at h
    exact absurd h.symm hx
  · subst heq
    rw [List.getElem?_append_right (by simp)] at h
    simp at h
    exact ⟨rfl, h.symm⟩
  · rw [List.getElem?_eq_none (by simp; omega)] at h
    cases h

theorem set_closed_append (n : Nat) (r x : ReadyState) :
    (List.replicate n ReadyState.closed ++ [r]).set n x =
      List.replicate n ReadyState.closed ++ [x] := by
  rw [List.set_append_right _ _ (by simp)]
  simp

theorem getElem?_closed_append_self (n : Nat) (r : ReadyState) :
    (List.replicate n ReadyState.closed ++ [r])[n]? = some r := by
  rw [List.getElem?_append_right (by simp)]
  simp


theorem onmessage_effect {Log : Type} (parse : JsString → Option Log) (data : JsString)
    (s : LogStream Log) :
    (onmessage parse data s).sockets = s.sockets ∧ (onmessage parse data s).ws = s.ws ∧
    (onmessage parse data s).timers = s.timers ∧
    (onmessage parse data s).wsConnected = s.wsConnected ∧
    (onmessage parse data s).connectCalls = s.connectCalls ∧
    (onmessage parse data s).cleanedUp = s.cleanedUp := by
  unfold onmessage
  cases parse data with
  | none => exact ⟨rfl, rfl, rfl, rfl, rfl, rfl⟩
  | some d =>
    simp only
    split <;> exact ⟨rfl, rfl, rfl, rfl, rfl, rfl⟩

theorem oneAttempt_mount {Log : Type} (L : List Log) : OneAttempt (mount L) :=
  ⟨0, ReadyState.connecting, rfl, rfl, Or.inl ⟨by decide, rfl⟩⟩

theorem oneAttempt_step {Log : Type} (parse : JsString → Option Log) (e : Event)
    (s : LogStream Log) (hs : OneAttempt s) (he : enabled s e = true) :
    OneAttempt (step parse e s) := by
  obtain ⟨n, r, hsock, hws, hcase⟩ := hs
  cases e with
  | opened i =>
    simp only [enabled, beq_iff_eq, hsock] at he
    obtain ⟨rfl, hr⟩ := getElem?_closed_append he (by decide)
    refine ⟨i, ReadyState.opened, ?_, hws, ?_⟩
    · simp only [step, onopen, hsock, set_closed_append]
    · rcases hcase with h | h
      · exact Or.inl ⟨by decide, h.2⟩
      · rw [← hr] at h; exact absurd h.1 (by decide)
  | message i data =>
    obtain ⟨h₁, h₂, h₃, -, -, -⟩ := onmessage_effect parse data s
    refine ⟨n, r, ?_, ?_, ?_⟩
    · simp only [step]; rw [h₁]; exact hsock
    · simp only [step]; rw [h₂]; exact hws
    · simp only [step]; rw [h₃]; exact hcase
  | closed i =>
    have hne : ∃ x, s.sockets[i]? = some x ∧ x ≠ ReadyState.closed := by
      simp only [enabled, Bool.or_eq_true, beq_iff_eq] at he
      rcases he with (h | h) | h
      · exact ⟨_, h, by decide⟩
      · exact ⟨_, h, by decide⟩
      · exact ⟨_, h, by decide⟩
    obtain ⟨x, hx, hxne⟩ := hne
    rw [hsock] at hx
    obtain ⟨rfl, hr⟩ := getElem?_closed_append hx hxne
    refine ⟨i, ReadyState.closed, ?_, hws, Or.inr ⟨rfl, ?_⟩⟩
    · simp only [step, onclose, hsock, set_closed_append]
    · rcases hcase with h | h
      · simp only [step, onclose, h.2, List.nil_append]
      · rw [← hr] at h; exact absurd h.1 hxne
  | timer k =>
    simp only [enabled, decide_eq_true_eq] at he
    rcases hcase with h | h
    · rw [h.2] at he; simp at he
    · have hk : k = 0 := by rw [h.2] at he; simpa using he
      subst hk
      refine ⟨n + 1, ReadyState.connecting, ?_, ?_, Or.inl ⟨by decide, ?_⟩⟩
      · simp only [step, connect, hsock, h.1, List.replicate_succ', List.append_assoc]
      · simp only [step, connect, hsock]; simp
      · simp only [step, connect, h.2]; rfl
  | unmount =>
    have hget : s.sockets[n]? = some r := by
      rw [hsock]; exact getElem?_closed_append_self n r
    have htim : (step parse Event.unmount s).timers = s.timers := by
      simp only [step, cleanup, hws, wsClose, hget]
      cases r <;> rfl
    have hws' : (step parse Event.unmount s).ws = some n := by
      simp only [step, cleanup, hws, wsClose, hget]
      cases r <;> first | rfl | exact hws
    cases r with
    | connecting =>
      refine ⟨n, ReadyState.closing, ?_, hws', Or.inl ⟨by decide, ?_⟩⟩
      · simp only [step, cleanup, hws, wsClose, hget]
        rw [hsock, set_closed_append]
      · rw [htim]
        rcases hcase with h | h
        · exact h.2
        · exact absurd h.1 (by decide)
    | opened =>
      refine ⟨n, ReadyState.closing, ?_, hws', Or.inl ⟨by decide, ?_⟩⟩
      · simp only [step, cleanup, hws, wsClose, hget]
        rw [hsock, set_closed_append]
      · rw [htim]
        rcases hcase with h | h
        · exact h.2
        · exact absurd h.1 (by decide)
    | closing =>
      refine ⟨n, ReadyState.closing, ?_, hws', ?_⟩
      · simp only [step, cleanup, hws, wsClose, hget]
        exact hsock
      · rw [htim]; exact hcase
    | closed =>
      refine ⟨n, ReadyState.closed, ?_, hws', ?_⟩
      · simp only [step, cleanup, hws, wsClose, hget]
        exact hsock
      · rw [htim]; exact hcase

theorem oneAttempt_run {Log : Type} (parse : JsString → Option Log) (evs : List Event)
    (s : LogStream Log) (hs : OneAttempt s) (hv : validTrace parse evs s = true) :
    OneAttempt (run parse evs s) := by
  induction evs generalizing s with
  | nil => exact hs
  | cons e es ih =>
    simp only [validTrace, Bool.and_eq_true] at hv
    exact ih _ (oneAttempt_step parse e s hs hv.1) hv.2


theorem step_logs_mounted {Log : Type} (parse : JsString → Option Log) (e : Event)
    (s : LogStream Log) (hm : s.cleanedUp = false) (he : e ≠ Event.unmount) :
    (step parse e s).logs = s.logs ++ (frames [e]).filterMap parse ∧
    (step parse e s).cleanedUp = false := by
  cases e with
  | opened i => simp [step, onopen, frames, hm]
  | message i data =>
    simp only [step, onmessage, frames, List.filterMap_cons, List.filterMap_nil]
    cases parse data with
    | none => simp [hm]
    | some d => simp [hm]
  | closed i => simp [step, onclose, frames, hm]
  | timer k => simp [step, connect, frames, hm]
  | unmount => exact absurd rfl he

theorem cleanup_logs {Log : Type} (s : LogStream Log) :
    (cleanup s).logs = s.logs ∧ (cleanup s).wsConnected = s.wsConnected := by
  unfold cleanup wsClose
  split
  · split <;> exact ⟨rfl, rfl⟩
  · exact ⟨rfl, rfl⟩

theorem rerender_logs {Log : Type} (renders : Log → Bool) (a : Page Log) :
    (rerender renders a).stream.logs = a.stream.logs ∧
    (rerender renders a).stream.wsConnected = a.stream.wsConnected := by
  unfold rerender
  split
  · exact cleanup_logs a.stream
  · exact ⟨rfl, rfl⟩

theorem rerender_of_renders {Log : Type} (renders : Log → Bool) (a : Page Log)
    (h : ∀ d ∈ a.stream.logs, renders d = true) : rerender renders a = a := by
  unfold rerender renderThrows
  have : (a.stream.logs.any fun d => !renders d) = false := by
    rw [List.any_eq_false]
    intro d hd
    simp [h d hd]
  simp [this]

theorem actionFrames_cons (x : Action) (xs : List Action) :
    actionFrames (x :: xs) = actionFrames [x] ++ actionFrames xs := by
  cases x with
  | navigate v => simp [actionFrames]
  | stream e => cases e <;> simp [actionFrames]

theorem act_logs_mounted {Log : Type} (parse : JsString → Option Log) (renders : Log → Bool)
    (x : Action) (a : Page Log) (hm : a.stream.cleanedUp = false)
    (hL : ∀ d ∈ a.stream.logs, renders d = true) (hx : x ≠ Action.stream Event.unmount)
    (hr : ∀ data ∈ actionFrames [x], ∀ d, parse data = some d → renders d = true) :
    (act parse renders x a).stream.logs = a.stream.logs ++ (actionFrames [x]).filterMap parse ∧
    (act parse renders x a).stream.cleanedUp = false ∧
    (∀ d ∈ (act parse renders x a).stream.logs, renders d = true) := by
  cases x with
  | navigate v =>
    have h : act parse renders (Action.navigate v) a = { a with view := v } := by
      simp only [act, hm, Bool.false_eq_true, if_false]
      exact rerender_of_renders renders _ hL
    rw [h]
    exact ⟨by simp [actionFrames], hm, hL⟩
  | stream e =>
    have he : e ≠ Event.unmount := fun h => hx (by rw [h])
    obtain ⟨hlogs, hmount⟩ := step_logs_mounted parse e a.stream hm he
    have hfr : actionFrames [Action.stream e] = frames [e] := by
      cases e <;> rfl
    have hall : ∀ d ∈ (step parse e a.stream).logs, renders d = true := by
      intro d hd
      rw [hlogs] at hd
      rcases List.mem_append.mp hd with h | h
      · exact hL d h
      · obtain ⟨data, hdata, hp⟩ := List.mem_filterMap.mp h
        exact hr data (by rw [hfr]; exact hdata) d hp
    have h : act parse renders (Action.stream e) a = { a with stream := step parse e a.stream } := by
      simp only [act]
      exact rerender_of_renders renders _ hall
    rw [h, hfr]
    exact ⟨hlogs, hmount, hall⟩

theorem runPage_logs_mounted {Log : Type} (parse : JsString → Option Log) (renders : Log → Bool)
    (xs : List Action) (a : Page Log) (hm : a.stream.cleanedUp = false)
    (hL : ∀ d ∈ a.stream.logs, renders d = true) (hu : Action.stream Event.unmount ∉ xs)
    (hr : ∀ data ∈ actionFrames xs, ∀ d, parse data = some d → renders d = true) :
    (runPage parse renders xs a).stream.logs = a.stream.logs ++ (actionFrames xs).filterMap parse ∧
    (runPage parse renders xs a).stream.cleanedUp = false := by
  induction xs generalizing a with
  | nil => simp [runPage, actionFrames, hm]
  | cons x xs ih =>
    have hx : x ≠ Action.stream Event.unmount := fun h => hu (by rw [h]; exact List.mem_cons_self _ _)
    have hu' : Action.stream Event.unmount ∉ xs := fun h => hu (List.mem_cons_of_mem _ h)
    have hsplit := actionFrames_cons x xs
    obtain ⟨h₁, h₂, h₃⟩ := act_logs_mounted parse renders x a hm hL hx
      (fun data hd => hr data (by rw [hsplit]; exact List.mem_append_left _ hd))
    obtain ⟨ih₁, ih₂⟩ := ih (act parse renders x a) h₂ h₃ hu'
      (fun data hd => hr data (by rw [hsplit]; exact List.mem_append_right _ hd))
    rw [runPage, ih₁, h₁, hsplit, List.filterMap_append, List.append_assoc]
    exact ⟨rfl, ih₂⟩

theorem retries_run {Log : Type} (parse : JsString → Option Log) (n j : Nat) (r : ReadyState)
    (s : LogStream Log) (hsock : s.sockets = List.replicate j ReadyState.closed ++ [r])
    (hr : r ≠ ReadyState.closed) (ht : s.timers = []) :
    validTrace parse (retries n j) s = true ∧
      (run parse (retries n j) s).connectCalls = s.connectCalls + n := by
  induction n generalizing j r s with
  | zero => exact ⟨rfl, rfl⟩
  | succ n ih =>
    have hget : s.sockets[j]? = some r := by
      rw [hsock]; exact getElem?_closed_append_self j r
    have hen : enabled s (Event.closed j) = true := by
      simp only [enabled, hget]
      cases r
      · rfl
      · rfl
      · rfl
      · exact absurd rfl hr
    have hs2 : (step parse (Event.timer 0) (step parse (Event.closed j) s)).sockets =
        List.replicate (j + 1) ReadyState.closed ++ [ReadyState.connecting] := by
      simp only [step, onclose, connect, hsock, set_closed_append, List.replicate_succ',
        List.append_assoc]
    have ht2 : (step parse (Event.timer 0) (step parse (Event.closed j) s)).timers = [] := by
      simp only [step, onclose, connect, ht]; rfl
    have hc2 : (step parse (Event.timer 0) (step parse (Event.closed j) s)).connectCalls =
        s.connectCalls + 1 := rfl
    have hen2 : enabled (step parse (Event.closed j) s) (Event.timer 0) = true := by
      simp [enabled, step, onclose, ht]
    obtain ⟨hv, hc⟩ := ih (j + 1) ReadyState.connecting _ hs2 (by decide) ht2
    refine ⟨?_, ?_⟩
    · simp only [retries, validTrace, hen, hen2, hv, Bool.and_self]
    · simp only [retries, run, hc, hc2]; omega

theorem pollTicks_eq {Log : Type} (ticks : List (FetchOutcome × JsonBody)) (s : AppState Log) :
    pollTicks ticks s = { s with status := (lastRunning ticks).getD s.status } := by
  induction ticks generalizing s with
  | nil => rfl
  | cons t ticks ih =>
    obtain ⟨f, b⟩ := t
    rw [pollTicks, ih]
    cases f with
    | networkError => simp [checkStatus, lastRunning]
    | response ok =>
      cases b with
      | invalid => simp [checkStatus, lastRunning]
      | null => simp [checkStatus, lastRunning]
      | value running =>
        simp only [checkStatus, lastRunning]
        cases lastRunning ticks <;> rfl

theorem sortValue_of_strOrMissing (rt : Runtime) (key : String) (b : Book)
    (h : (b.get key).strOrMissing = true) :
    sortValue rt key b = JsVal.str (lowerKey rt key b) := by
  unfold sortValue lowerKey
  cases hv : b.get key with
  | undefined => simp [orEmpty, JsVal.truthy, boolToNum, lowerStr, rt.toLowerCase_empty]
  | bool x => rw [hv] at h; cases h
  | num n => rw [hv] at h; cases h
  | str s =>
    cases s with
    | nil => simp [orEmpty, JsVal.truthy, boolToNum, lowerStr]
    | cons c cs => rfl

theorem rank_of_strOrMissing (rt : Runtime) (key : String) (b : Book)
    (h : (b.get key).strOrMissing = true) : rank rt key b = lowerKey rt key b := by
  rw [rank, sortValue_of_strOrMissing rt key b h]; rfl

theorem filterStep_subset (rt : Runtime) (filter : JsString) (books : List Book) :
    ∀ b ∈ filterStep rt filter books, b ∈ books := by
  intro b hb
  rw [filterStep_eq_filter] at hb
  exact (List.mem_filter.mp hb).1

theorem sortedBooks_pairwise_lowerKey (rt : Runtime) (books : List Book) (key : String)
    (d : Direction) (filter : JsString) (h : ∀ b ∈ books, (b.get key).strOrMissing = true) :
    (sortedBooks rt books { key := some key, direction := d } filter).Pairwise
      (fun a b => if d = .asc then lowerKey rt key a ≤ lowerKey rt key b
        else lowerKey rt key b ≤ lowerKey rt key a) := by
  have hs := arraySort_compareBooks_sorted rt key d (filterStep rt filter books)
  have hmem : ∀ x ∈ arraySort (compareBooks rt key d) (filterStep rt filter books),
      (x.get key).strOrMissing = true := by
    intro x hx
    exact h x (filterStep_subset rt filter books x ((arraySort_perm _ _).subset hx))
  unfold sortedBooks sortStep
  simp only
  refine hs.imp_of_mem ?_
  intro a b ha hb hab
  rw [compareBooks_nonpos_iff, rank_of_strOrMissing rt key a (hmem a ha),
    rank_of_strOrMissing rt key b (hmem b hb)] at hab
  exact hab

/-! ## Inventory view model: filter, sort, display cap, direction toggle -/

/-- C1: the filter step of `sortedBooks` returns exactly the items of the collection,
unaltered and in their order, whose lower-cased title, author or ean contains the
lower-cased filter text, an absent field counting as the empty string; with the
empty filter text every item passes. -/
theorem filterStep_keeps_exactly_matching (rt : Runtime) (filter : JsString)
    (books : List Book) :
    filterStep rt filter books = books.filter (fun b => decide (containsText rt filter b)) ∧
    filterStep rt [] books = books :=
  ⟨filterStep_eq_filter rt filter books, rfl⟩

/-- C2: the sort of `sortedBooks` is stable: for every collection, filter text, sort
key and direction, the items that compare equal to any given item (comparator
result zero) appear in the output exactly as they appear in the input collection,
in the same relative order. -/
theorem sortedBooks_stable (rt : Runtime) (books : List Book) (key : String) (d : Direction)
    (filter : JsString) (x : Book) :
    (sortedBooks rt books { key := some key, direction := d } filter).filter
        (fun y => compareBooks rt key d x y == 0) =
      books.filter (fun y => decide (containsText rt filter y) && compareBooks rt key d x y == 0) := by
  unfold sortedBooks sortStep
  simp only
  rw [arraySort_stable_class, filterStep_eq_filter, List.filter_filter]
  apply List.filter_congr
  intro y _
  exact Bool.and_comm _ _

/-- C3: the sort step of `sortedBooks` is idempotent: applied to its own output with
the same key and direction it returns that output unchanged. -/
theorem sortStep_idempotent (rt : Runtime) (sortConfig : SortConfig) (L : List Book) :
    sortStep rt sortConfig (sortStep rt sortConfig L) = sortStep rt sortConfig L := by
  unfold sortStep
  cases sortConfig.key with
  | none => rfl
  | some key => exact arraySort_of_sorted _ _ (arraySort_compareBooks_sorted rt key _ L)

/-- C4: the rendered item rows are the rows of the first `min n 100` elements of the
filtered and sorted sequence, in order: row number `i` has the ean of book number
`i` as its key and shows that book's ean, author, title and release date, its
cover when it has one, and `In Library` exactly when the book exists; a summary
row is rendered exactly when `n > 100`, and the number it prints is `n`, the size
of the whole filtered set. -/
theorem renderTable_cap (rt : Runtime) (books : List Book) (sortConfig : SortConfig)
    (filter : JsString) :
    (renderTable rt books sortConfig filter).rows =
        ((sortedBooks rt books sortConfig filter).take
          (min (sortedBooks rt books sortConfig filter).length 100)).map renderRow ∧
    (renderTable rt books sortConfig filter).rows.length =
        min (sortedBooks rt books sortConfig filter).length 100 ∧
    ((renderTable rt books sortConfig filter).summary.isSome ↔
        100 < (sortedBooks rt books sortConfig filter).length) ∧
    (∀ m ∈ (renderTable rt books sortConfig filter).summary,
        m = (sortedBooks rt books sortConfig filter).length ∧
        m = (filterStep rt filter books).length) ∧
    (renderTable rt books sortConfig filter).rows.map (fun r => r.key) =
        ((sortedBooks rt books sortConfig filter).take
          (min (sortedBooks rt books sortConfig filter).length 100)).map (fun b => b.ean) ∧
    (renderTable rt books sortConfig filter).rows.map (fun r => r.ean) =
        ((sortedBooks rt books sortConfig filter).take
          (min (sortedBooks rt books sortConfig filter).length 100)).map (fun b => b.ean) ∧
    (renderTable rt books sortConfig filter).rows.map (fun r => r.author) =
        ((sortedBooks rt books sortConfig filter).take
          (min (sortedBooks rt books sortConfig filter).length 100)).map (fun b => b.author) ∧
    (renderTable rt books sortConfig filter).rows.map (fun r => r.title) =
        ((sortedBooks rt books sortConfig filter).take
          (min (sortedBooks rt books sortConfig filter).length 100)).map (fun b => b.title) ∧
    (renderTable rt books sortConfig filter).rows.map (fun r => r.release_date) =
        ((sortedBooks rt books sortConfig filter).take
          (min (sortedBooks rt books sortConfig filter).length 100)).map
            (fun b => b.release_date) ∧
    (renderTable rt books sortConfig filter).rows.map (fun r => r.inLibrary) =
        ((sortedBooks rt books sortConfig filter).take
          (min (sortedBooks rt books sortConfig filter).length 100)).map
            (fun b => decide (b.exists_ = some true)) ∧
    (renderTable rt books sortConfig filter).rows.map (fun r => r.cover) =
        ((sortedBooks rt books sortConfig filter).take
          (min (sortedBooks rt books sortConfig filter).length 100)).map
            (fun b => if b.has_cover = some true ∧ b.relative_cover_path ≠ some []
              then b.relative_cover_path else none) := by
  have hrows : (renderTable rt books sortConfig filter).rows =
      ((sortedBooks rt books sortConfig filter).take
        (min (sortedBooks rt books sortConfig filter).length 100)).map renderRow := by
    simp only [renderTable]
    congr 1
    exact (take_min_length _ 100).symm
  refine ⟨hrows, ?_, ?_, ?_, ?_, ?_, ?_, ?_, ?_, ?_, ?_⟩
  · simp [renderTable, Nat.min_comm]
  · simp only [renderTable]
    split <;> simp_all
  · intro m hm
    simp only [renderTable, Option.mem_def] at hm
    split at hm
    · simp only [Option.some.injEq] at hm
      subst hm
      exact ⟨rfl, length_sortStep rt sortConfig _⟩
    · simp at hm
  · rw [hrows, List.map_map]; rfl
  · rw [hrows, List.map_map]; rfl
  · rw [hrows, List.map_map]; rfl
  · rw [hrows, List.map_map]; rfl
  · rw [hrows, List.map_map]; rfl
  · rw [hrows, List.map_map]
    apply List.map_congr_left
    intro b _
    exact renderRow_inLibrary b
  · rw [hrows, List.map_map]
    apply List.map_congr_left
    intro b _
    exact renderRow_cover b

/-- C5 (as stated, refuted): with the 150 sample items and the empty filter, 100 item
rows are rendered and the summary row prints 150, the size of the filtered set, not
the 50 items that are not shown. -/
theorem summary_row_prints_150_not_50 :
    books150.length = 150 ∧
    (renderTable asciiRuntime books150 initialSortConfig []).rows.length = 100 ∧
    (renderTable asciiRuntime books150 initialSortConfig []).summary = some 150 ∧
    (renderTable asciiRuntime books150 initialSortConfig []).summary ≠ some (150 - 100) := by
  have hlen : (filterStep asciiRuntime [] books150).length = 150 := length_books150
  refine ⟨length_books150, ?_, ?_, ?_⟩
  · rw [renderTable_rows_length, hlen]; rfl
  · rw [renderTable_summary, hlen]; rfl
  · rw [renderTable_summary, hlen]; decide

/-- C5 (amended): when the filtered set has `n > 100` items, exactly 100 item rows are
rendered and the summary row prints `n`, the size of the whole filtered set. -/
theorem summary_row_prints_filtered_size (rt : Runtime) (books : List Book)
    (sortConfig : SortConfig) (filter : JsString)
    (h : 100 < (filterStep rt filter books).length) :
    (renderTable rt books sortConfig filter).rows.length = 100 ∧
    (renderTable rt books sortConfig filter).summary = some (filterStep rt filter books).length := by
  constructor
  · rw [renderTable_rows_length]; exact min_eq_right h.le
  · rw [renderTable_summary, if_pos h]

/-- C5 (amended), at the 150 sample items with the empty filter: 100 rows and a
summary row printing 150. -/
theorem summary_row_prints_filtered_size_witness :
    100 < (filterStep asciiRuntime [] books150).length ∧
    (renderTable asciiRuntime books150 initialSortConfig []).rows.length = 100 ∧
    (renderTable asciiRuntime books150 initialSortConfig []).summary =
      some (filterStep asciiRuntime [] books150).length :=
  ⟨by simp [filterStep, books150],
   summary_row_prints_filtered_size asciiRuntime books150 initialSortConfig []
     (by simp [filterStep, books150])⟩

/-- C6 (as stated, refuted): for the collection of one sample item and the filter
text `zz`, which no title, author or ean contains, no item row and no summary row
are rendered, yet the `Total:` label shows 1, not 0. -/
theorem total_label_not_zero :
    (∀ b ∈ [sampleBook 0], ¬ containsText asciiRuntime (lit "zz") b) ∧
    (renderTable asciiRuntime [sampleBook 0] initialSortConfig (lit "zz")).rows = [] ∧
    (renderTable asciiRuntime [sampleBook 0] initialSortConfig (lit "zz")).summary = none ∧
    (renderTable asciiRuntime [sampleBook 0] initialSortConfig (lit "zz")).totalLabel = 1 ∧
    (renderTable asciiRuntime [sampleBook 0] initialSortConfig (lit "zz")).totalLabel ≠ 0 := by
  decide

/-- C6 (amended): when the filter text is contained in no item's title, author or
ean, no item row and no summary row are rendered, and the `Total:` label shows the
size of the fetched collection. -/
theorem filter_to_zero_results (rt : Runtime) (books : List Book) (sortConfig : SortConfig)
    (filter : JsString) (h : ∀ b ∈ books, ¬ containsText rt filter b) :
    (renderTable rt books sortConfig filter).rows = [] ∧
    (renderTable rt books sortConfig filter).summary = none ∧
    (renderTable rt books sortConfig filter).totalLabel = books.length := by
  have hf : filterStep rt filter books = [] := by
    rw [filterStep_eq_filter, List.filter_eq_nil_iff]
    intro b hb
    simpa using h b hb
  refine ⟨?_, ?_, rfl⟩
  · have hl := renderTable_rows_length rt books sortConfig filter
    rw [hf] at hl
    exact List.eq_nil_of_length_eq_zero (by simpa using hl)
  · rw [renderTable_summary, hf]; rfl

/-- C6 (amended), at the collection of one sample item and the filter text `zz`. -/
theorem filter_to_zero_results_witness :
    (renderTable asciiRuntime [sampleBook 0] initialSortConfig (lit "zz")).rows = [] ∧
    (renderTable asciiRuntime [sampleBook 0] initialSortConfig (lit "zz")).summary = none ∧
    (renderTable asciiRuntime [sampleBook 0] initialSortConfig (lit "zz")).totalLabel =
      [sampleBook 0].length :=
  filter_to_zero_results asciiRuntime [sampleBook 0] initialSortConfig (lit "zz") (by decide)

/-- C7: `handleSort(k)` selects key `k`; the direction becomes `desc` when `k` is the
current key and the current direction is `asc`, `asc` when `k` is the current key
and the current direction is `desc`, and `asc` when `k` is not the current key;
clicking the current key twice restores the sort state. -/
theorem handleSort_toggle (sortConfig : SortConfig) (k : String) :
    (handleSort sortConfig k).key = some k ∧
    (sortConfig.key = some k → sortConfig.direction = .asc →
      (handleSort sortConfig k).direction = .desc) ∧
    (sortConfig.key = some k → sortConfig.direction = .desc →
      (handleSort sortConfig k).direction = .asc) ∧
    (sortConfig.key ≠ some k → (handleSort sortConfig k).direction = .asc) ∧
    (sortConfig.key = some k → handleSort (handleSort sortConfig k) k = sortConfig) := by
  obtain ⟨key, d⟩ := sortConfig
  refine ⟨rfl, ?_, ?_, ?_, ?_⟩
  · intro hk hd; simp only at hk hd; simp [handleSort, hk, hd]
  · intro hk hd; simp only at hk hd; simp [handleSort, hk, hd]
  · intro hk; simp only at hk; simp [handleSort, hk]
  · intro hk; simp only at hk; subst hk
    cases d <;> simp [handleSort]

/-- C7, at the initial sort state and the key `author`: the first click gives `desc`,
the second click restores the initial state. -/
theorem handleSort_toggle_witness :
    (handleSort initialSortConfig "author").direction = .desc ∧
    handleSort (handleSort initialSortConfig "author") "author" = initialSortConfig :=
  ⟨(handleSort_toggle initialSortConfig "author").2.1 rfl rfl,
   (handleSort_toggle initialSortConfig "author").2.2.2.2 rfl⟩

/-! ## Log stream: delivery order, teardown, reconnection -/

/-- C8 (as stated, refuted): in the lifecycle with the frames `12`, `null`, `7`, which
all parse as JSON, the frame `null` is appended, the render of the log panel then
throws and the component is unmounted; the frame `7`, delivered after the
reconnect, is not appended: the log list ends as `12`, `null`, not as the decoded
values of all three frames. -/
theorem null_frame_stops_the_log :
    validActions nullableParse nullableRenders crashActions (mountPage []) = true ∧
    (actionFrames crashActions).filterMap nullableParse = [some 12, none, some 7] ∧
    (runPage nullableParse nullableRenders crashActions (mountPage [])).stream.logs =
      [some 12, none] ∧
    (runPage nullableParse nullableRenders crashActions (mountPage [])).stream.cleanedUp = true ∧
    (runPage nullableParse nullableRenders crashActions (mountPage [])).stream.logs ≠
      (mountPage []).stream.logs ++ (actionFrames crashActions).filterMap nullableParse := by
  decide

/-- C8 (amended): while the component is mounted and every entry of the log list
renders, for every sequence of lifecycle events and navigation clicks without an
unmount in which every frame that parses decodes to a value the log panel can
render, the resulting log list is the initial one followed by the decoded values
of exactly the frames that parse, in arrival order, and the component is still
mounted; a frame that fails to parse leaves the whole page unchanged, and no
frame changes the connection flag. -/
theorem logs_equal_delivery_order_while_rendered {Log : Type} (parse : JsString → Option Log)
    (renders : Log → Bool) (xs : List Action) (a : Page Log)
    (hm : a.stream.cleanedUp = false) (hL : ∀ d ∈ a.stream.logs, renders d = true)
    (hu : Action.stream Event.unmount ∉ xs)
    (hr : ∀ data ∈ actionFrames xs, ∀ d, parse data = some d → renders d = true) :
    (runPage parse renders xs a).stream.logs =
      a.stream.logs ++ (actionFrames xs).filterMap parse ∧
    (runPage parse renders xs a).stream.cleanedUp = false ∧
    (∀ i data, parse data = none →
      act parse renders (Action.stream (Event.message i data)) a = a) ∧
    (∀ i data, (act parse renders (Action.stream (Event.message i data)) a).stream.wsConnected =
      a.stream.wsConnected) := by
  obtain ⟨h₁, h₂⟩ := runPage_logs_mounted parse renders xs a hm hL hu hr
  refine ⟨h₁, h₂, ?_, ?_⟩
  · intro i data h
    have hs : step parse (Event.message i data) a.stream = a.stream := by
      simp only [step, onmessage, h]
    simp only [act, hs]
    exact rerender_of_renders renders a hL
  · intro i data
    simp only [act]
    rw [(rerender_logs renders _).2]
    exact (onmessage_effect parse data a.stream).2.2.2.1

/-- C8 (amended), at the sample lifecycle, whose frames are `12`, `oops` and `7`: the
log list is `12` then `7`, across the reconnect, and the frame `oops` leaves the
page unchanged. -/
theorem logs_equal_delivery_order_while_rendered_witness :
    numberParse (lit "oops") = none ∧
    (runPage numberParse (fun _ => true) sampleActions (mountPage [])).stream.logs = [12, 7] ∧
    act numberParse (fun _ => true) (Action.stream (Event.message 0 (lit "oops"))) (mountPage [])
      = mountPage [] :=
  ⟨by decide,
   (logs_equal_delivery_order_while_rendered numberParse (fun _ => true) sampleActions
      (mountPage []) rfl (by decide) (by decide) (fun _ _ _ _ => rfl)).1.trans (by decide),
   (logs_equal_delivery_order_while_rendered numberParse (fun _ => true) sampleActions
      (mountPage []) rfl (by decide) (by decide) (fun _ _ _ _ => rfl)).2.2.1 0 (lit "oops")
      (by decide)⟩

/-- C9 (the code at the failing input): when the component unmounts while the socket
is open, the cleanup puts the socket in the closing state; its close event then
schedules a 3000 ms timer although the cleanup has run, and when that timer fires
`connect` runs a second time and a new socket is connecting. -/
theorem unmount_does_not_cancel_reconnect :
    validTrace numberParse unmountTrace (mount []) = true ∧
    (run numberParse [Event.opened 0, Event.unmount] (mount [])).sockets = [ReadyState.closing] ∧
    (run numberParse [Event.opened 0, Event.unmount] (mount [])).cleanedUp = true ∧
    (run numberParse [Event.opened 0, Event.unmount, Event.closed 0] (mount [])).timers = [3000] ∧
    (run numberParse unmountTrace (mount [])).connectCalls = 2 ∧
    (run numberParse unmountTrace (mount [])).sockets =
      [ReadyState.closed, ReadyState.connecting] := by
  decide

/-- C10: after any valid history of the connection started on mount, a close event
sets the connection flag to disconnected and leaves exactly one pending timer, of
3000 ms, without calling `connect`; a timer can fire only when no socket is
connecting or open, it is the only pending timer and its firing calls `connect`
once; and for every `n` the history of `n` closes, each followed by its timer, is
valid and ends with `n + 1` calls of `connect`. -/
theorem reconnect_constant_backoff {Log : Type} (parse : JsString → Option Log) (L : List Log)
    (evs : List Event) (hv : validTrace parse evs (mount L) = true) :
    (∀ i, enabled (run parse evs (mount L)) (Event.closed i) = true →
      (step parse (Event.closed i) (run parse evs (mount L))).wsConnected = false ∧
      (step parse (Event.closed i) (run parse evs (mount L))).timers = [3000] ∧
      (step parse (Event.closed i) (run parse evs (mount L))).connectCalls =
        (run parse evs (mount L)).connectCalls) ∧
    (∀ k, enabled (run parse evs (mount L)) (Event.timer k) = true →
      k = 0 ∧ (∀ r ∈ (run parse evs (mount L)).sockets, r.live = false) ∧
      (step parse (Event.timer k) (run parse evs (mount L))).timers = [] ∧
      (step parse (Event.timer k) (run parse evs (mount L))).connectCalls =
        (run parse evs (mount L)).connectCalls + 1) ∧
    (∀ n, validTrace parse (retries n 0) (mount L) = true ∧
      (run parse (retries n 0) (mount L)).connectCalls = n + 1) := by
  have hinv := oneAttempt_run parse evs (mount L) (oneAttempt_mount L) hv
  obtain ⟨m, r, hsock, -, hcase⟩ := hinv
  refine ⟨?_, ?_, ?_⟩
  · intro i hi
    have hne : ∃ x, (run parse evs (mount L)).sockets[i]? = some x ∧ x ≠ ReadyState.closed := by
      simp only [enabled, Bool.or_eq_true, beq_iff_eq] at hi
      rcases hi with (h | h) | h
      · exact ⟨_, h, by decide⟩
      · exact ⟨_, h, by decide⟩
      · exact ⟨_, h, by decide⟩
    obtain ⟨x, hx, hxne⟩ := hne
    rw [hsock] at hx
    obtain ⟨-, hr⟩ := getElem?_closed_append hx hxne
    rcases hcase with h | h
    · exact ⟨rfl, by simp only [step, onclose, h.2, List.nil_append], rfl⟩
    · rw [← hr] at h; exact absurd h.1 hxne
  · intro k hk
    simp only [enabled, decide_eq_true_eq] at hk
    rcases hcase with h | h
    · rw [h.2] at hk; simp at hk
    · have hk0 : k = 0 := by rw [h.2] at hk; simpa using hk
      subst hk0
      refine ⟨rfl, ?_, ?_, rfl⟩
      · intro x hx
        rw [hsock, h.1] at hx
        have : x = ReadyState.closed := by
          rcases List.mem_append.mp hx with h' | h'
          · exact (List.mem_replicate.mp h').2
          · simpa using h'
        rw [this]; rfl
      · simp only [step, connect, h.2]; rfl
  · intro n
    have := retries_run parse n 0 ReadyState.connecting (mount L) rfl (by decide) rfl
    exact ⟨this.1, by rw [this.2]; simp [mount, connect]; omega⟩

/-- C10, at the sample lifecycle followed by the close of the second socket. -/
theorem reconnect_constant_backoff_witness :
    validTrace numberParse sampleTrace (mount []) = true ∧
    (step numberParse (Event.closed 1) (run numberParse sampleTrace (mount []))).wsConnected = false ∧
    (step numberParse (Event.closed 1) (run numberParse sampleTrace (mount []))).timers = [3000] ∧
    (step numberParse (Event.closed 1) (run numberParse sampleTrace (mount []))).connectCalls =
      (run numberParse sampleTrace (mount [])).connectCalls :=
  ⟨by decide,
   (reconnect_constant_backoff numberParse [] sampleTrace (by decide)).1 1 (by decide)⟩

/-! ## Requests: scheduler toggle, start and stop, status poll -/

/-- C11 (as stated, refuted): with the flag off and a network failure of the request,
`toggle` ends with the flag still off, not flipped; and while the request is in
flight the flag is still off, so the flip is not applied before the backend
responds. -/
theorem toggle_not_flipped_on_network_failure :
    (toggle false FetchOutcome.networkError).settled = false ∧
    (toggle false FetchOutcome.networkError).settled ≠ !false ∧
    (toggle false (FetchOutcome.response true)).inFlight ≠ !false := by
  decide

/-- C11 (amended): for every value `e` of the flag, while the request is in flight
the flag is still `e`; when the request gets a response, with a success status or
not, `toggle` ends with the flag equal to `not e` and nothing rolls it back; when
the request fails on the network, `toggle` ends with the flag still `e` and its
promise rejects. -/
theorem toggle_flips_after_response (e ok : Bool) :
    toggle e (FetchOutcome.response ok) = { inFlight := e, settled := !e, rejected := false } ∧
    toggle e FetchOutcome.networkError = { inFlight := e, settled := e, rejected := true } :=
  ⟨rfl, rfl⟩

/-- C12 (as stated, refuted): from the initial state, whose status is false, a start
request that succeeds leaves the status true at once, without any poll tick. -/
theorem handleStart_sets_status :
    initialApp.status = JsVal.bool false ∧
    (handleStart (FetchOutcome.response true) (JsonBody.value JsVal.undefined) initialApp).state.status
      = JsVal.bool true ∧
    (handleStart (FetchOutcome.response true) (JsonBody.value JsVal.undefined) initialApp).state.status
      ≠ initialApp.status := by
  decide

/-- C12 (amended): `handleStop` leaves the whole state unchanged for every outcome of
its request; `handleStart` leaves it unchanged when its request fails on the
network or the body is not JSON, and otherwise sets the status to true and changes
nothing else; neither raises an error to its caller. -/
theorem start_stop_status {Log : Type} (s : AppState Log) (f : FetchOutcome) (body : JsonBody)
    (ok : Bool) (running : JsVal) :
    handleStop f s = { state := s, rejected := false } ∧
    handleStart FetchOutcome.networkError body s = { state := s, rejected := false } ∧
    handleStart (FetchOutcome.response ok) JsonBody.invalid s = { state := s, rejected := false } ∧
    handleStart (FetchOutcome.response ok) JsonBody.null s =
      { state := { s with status := JsVal.bool true }, rejected := false } ∧
    handleStart (FetchOutcome.response ok) (JsonBody.value running) s =
      { state := { s with status := JsVal.bool true }, rejected := false } := by
  refine ⟨?_, rfl, rfl, rfl, rfl⟩
  cases f <;> rfl

/-- C13 (the code at the failing input): with the cached status true, a poll tick
whose request gets a non-success response with a JSON body that has no `running`
property overwrites the cached status with `undefined`; it does not leave it
unchanged.  No error is raised and the rest of the state is kept. -/
theorem checkStatus_overwrites_on_error_response :
    runningApp.status = JsVal.bool true ∧
    checkStatus (FetchOutcome.response false) (JsonBody.value JsVal.undefined) runningApp =
      { state := { runningApp with status := JsVal.undefined }, rejected := false } ∧
    (checkStatus (FetchOutcome.response false) (JsonBody.value JsVal.undefined)
      runningApp).state.status ≠ runningApp.status ∧
    (pollTicks [(FetchOutcome.response false, JsonBody.value JsVal.undefined)] runningApp).status
      = JsVal.undefined := by
  decide

/-! ## Inventory sort: ordered rearrangement, compared values -/

/-- C14: when the value under the sort key is a string or missing for every item of
the collection, the output of `sortedBooks` is a permutation of the filtered items,
and the lower-cased sort-key values (missing as the empty string) are
non-decreasing along it for `asc` and non-increasing for `desc`. -/
theorem sortedBooks_ordered_permutation (rt : Runtime) (books : List Book) (key : String)
    (filter : JsString) (h : ∀ b ∈ books, (b.get key).strOrMissing = true) :
    (∀ d, (sortedBooks rt books { key := some key, direction := d } filter).Perm
      (books.filter (fun b => decide (containsText rt filter b)))) ∧
    (sortedBooks rt books { key := some key, direction := .asc } filter).Pairwise
      (fun a b => lowerKey rt key a ≤ lowerKey rt key b) ∧
    (sortedBooks rt books { key := some key, direction := .desc } filter).Pairwise
      (fun a b => lowerKey rt key b ≤ lowerKey rt key a) := by
  refine ⟨?_, ?_, ?_⟩
  · intro d
    rw [← filterStep_eq_filter]
    exact arraySort_perm _ _
  · simpa using sortedBooks_pairwise_lowerKey rt books key .asc filter h
  · simpa using sortedBooks_pairwise_lowerKey rt books key .desc filter h

/-- C14, at the sample shelf sorted by title: ascending it reads alpha, Beta, Zeta. -/
theorem sortedBooks_ordered_permutation_witness :
    (∀ b ∈ sampleShelf, (b.get "title").strOrMissing = true) ∧
    sortedBooks asciiRuntime sampleShelf { key := some "title", direction := .asc } [] =
      [titled "2" "alpha", titled "3" "Beta", titled "1" "Zeta"] ∧
    (sortedBooks asciiRuntime sampleShelf { key := some "title", direction := .asc } []).Pairwise
      (fun a b => lowerKey asciiRuntime "title" a ≤ lowerKey asciiRuntime "title" b) :=
  ⟨by decide, by decide,
   (sortedBooks_ordered_permutation asciiRuntime sampleShelf "title" [] (by decide)).2.1⟩

/-- C15 (the code at the failing input): under the key `exists` an item whose flag is
false is compared as the empty string, the same value as an item without the flag,
and not as the number 0; only a true flag becomes a number, 1. -/
theorem false_flag_compared_as_empty_string :
    sortValue asciiRuntime "exists" (flagged (some false)) = JsVal.str [] ∧
    sortValue asciiRuntime "exists" (flagged (some false)) ≠ JsVal.num 0 ∧
    sortValue asciiRuntime "exists" (flagged (some false)) =
      sortValue asciiRuntime "exists" (flagged none) ∧
    sortValue asciiRuntime "exists" (flagged (some true)) = JsVal.num 1 := by
  decide

end Rernamer
